import Mathlib

/-!
Verification of the EV analytics dashboard ETL core: a shallow embedding of
`etl/column_mapper.py` (`map_columns`), `etl/data_cleaner.py` (`clean_data`)
and `etl/mysql_uploader.py` (`upload_to_mysql`), with theorems settling the
spec claims about them.

A pandas DataFrame is modeled as an ordered list of columns.  Each column
carries its label and its cells; a column is either of object dtype (string
cells) or numeric dtype (rational cells), and `none` is the missing-value
marker (None/NaN).  Numeric cells are rationals: the claims under study are
about exact arithmetic identities (median, subtraction), not float rounding.
-/

/-- One DataFrame column: a label plus typed cells.  `text` is pandas object
dtype, `num` is numeric dtype; `none` marks a missing cell. -/
inductive Col where
  | text : String → List (Option String) → Col
  | num : String → List (Option ℚ) → Col
deriving DecidableEq

/-- The label of a column. -/
def Col.name : Col → String
  | .text n _ => n
  | .num n _ => n

/-- A DataFrame: an ordered list of columns (each an ordered list of cells). -/
abbrev Frame := List Col

/-- The cells of a column, with the dtype recorded in the sum. -/
def Col.cells : Col → List (Option String) ⊕ List (Option ℚ)
  | .text _ cs => Sum.inl cs
  | .num _ cs => Sum.inr cs

/-- The entries of the `mapping` dict of `map_columns` in
`etl/column_mapper.py`, in source order.  The keys are written exactly as in
the source; note the key `"battery_size"` keeps its underscore there. -/
def mappingList : List (String × String) :=
  [("vehicleid", "VehicleID"), ("brand", "Manufacturer"), ("manufacturer", "Manufacturer"),
   ("model", "Model"), ("segment", "Segment"), ("battery", "BatterykWh"),
   ("battery_size", "BatterykWh"), ("range", "Rangekm"), ("price", "ExShowroomPriceINR"),
   ("cost", "OperatingCostINR"), ("revenue", "RevenueINR"), ("city", "City"),
   ("usage", "UsageType")]

/-- Dict lookup in `mapping` (`key in mapping` / `mapping[key]`); the keys are
pairwise distinct, so first-match lookup is exactly the dict lookup. -/
def mapping (k : String) : Option String :=
  mappingList.lookup k

/-- The lookup key built by the loop of `map_columns`:
`col.lower().replace(" ", "").replace("_", "")`.  Lowercasing acts per
character, and replacing a one-character pattern by the empty string removes
every occurrence of that character, so both replace calls are character
filters. -/
def normKey (s : String) : String :=
  String.mk (((s.data.map Char.toLower).filter (fun c => c != ' ')).filter (fun c => c != '_'))

/-- The effect of `rename_cols` on one column label: a label whose normalized
key is in the mapping is renamed to the canonical name, any other label is
kept.  (`rename_cols` holds exactly the matched labels, and `df.rename`
leaves labels outside the dict unchanged.) -/
def renameName (c : String) : String :=
  match mapping (normKey c) with
  | some canon => canon
  | none => c

/-- `df.rename(columns=rename_cols)` on one column: only the label changes. -/
def renameCol : Col → Col
  | .text n cs => .text (renameName n) cs
  | .num n cs => .num (renameName n) cs

/-- `map_columns` from `etl/column_mapper.py`: rename every column whose
normalized key is in the mapping; cells and column order are untouched. -/
def map_columns (df : Frame) : Frame :=
  df.map renameCol

/-- First column with the given label (`df[label]` / `label in df.columns`). -/
def findCol : Frame → String → Option Col
  | [], _ => none
  | c :: t, n => if c.name == n then some c else findCol t n

/-- How many columns of the frame carry the given label. -/
def countName (df : Frame) (n : String) : ℕ :=
  (df.filter (fun c => c.name == n)).length

/-- The spec example input: columns brand, battery_size, range, revenue,
cost (one categorical, four numeric). -/
def specExampleDf : Frame :=
  [Col.text "brand" [some "Tata"], Col.num "battery_size" [some 30],
   Col.num "range" [some 250], Col.num "revenue" [some 100],
   Col.num "cost" [some 30]]

/-- Claim C1: the code contradicts the documented mapping on the spec example
`["brand","battery_size","range","revenue","cost"]`.  The column
`"battery_size"` normalizes to the key `"batterysize"` (underscore stripped),
but the synonym dict stores that synonym under the key `"battery_size"`
(underscore kept), so the lookup misses and the column is left unchanged
instead of becoming `"BatterykWh"` as the docstring and spec state. -/
theorem map_columns_spec_example_battery_size_kept :
    (map_columns specExampleDf).map Col.name
      = ["Manufacturer", "battery_size", "Rangekm", "RevenueINR", "OperatingCostINR"]
    ∧ normKey "battery_size" = "batterysize"
    ∧ mapping "batterysize" = none
    ∧ mapping "battery_size" = some "BatterykWh" := by
  decide

/-- Insert a value into an already sorted list of rationals. -/
def insertSorted (x : ℚ) : List ℚ → List ℚ
  | [] => [x]
  | y :: ys => if x ≤ y then x :: y :: ys else y :: insertSorted x ys

/-- Sort a list of rationals (insertion sort). -/
def sortQ : List ℚ → List ℚ
  | [] => []
  | x :: xs => sortQ xs |> insertSorted x

/-- `Series.median()` over the non-missing values: sort, take the middle
element for an odd count, the average of the two middle elements for an even
count, and NaN (here `none`) for an empty list. -/
def median (xs : List ℚ) : Option ℚ :=
  if (sortQ xs).length = 0 then none
  else if (sortQ xs).length % 2 = 1 then some ((sortQ xs).getD ((sortQ xs).length / 2) 0)
  else some (((sortQ xs).getD ((sortQ xs).length / 2 - 1) 0 + (sortQ xs).getD ((sortQ xs).length / 2) 0) / 2)

/-- `df[col].fillna("Unknown")` on the cells of an object column. -/
def fillTextCells (cs : List (Option String)) : List (Option String) :=
  cs.map (fun c => some (c.getD "Unknown"))

/-- `df[col].fillna(df[col].median())` on the cells of a numeric column.  The
median is computed once, over the non-missing values, before substitution;
when every cell is missing the median is NaN and filling with NaN leaves the
cells unchanged. -/
def fillNumCells (cs : List (Option ℚ)) : List (Option ℚ) :=
  match median (cs.filterMap id) with
  | some m => cs.map (fun c => some (c.getD m))
  | none => cs

/-- The first `clean_data` loop (`select_dtypes(include="object")`): fill the
object columns, leave numeric columns alone. -/
def fillTextCol : Col → Col
  | .text n cs => .text n (fillTextCells cs)
  | c => c

/-- The second `clean_data` loop (`select_dtypes(include="number")`): fill the
numeric columns, leave object columns alone. -/
def fillNumCol : Col → Col
  | .num n cs => .num n (fillNumCells cs)
  | c => c

/-- Both fill loops of `clean_data`, in source order. -/
def fillAll (df : Frame) : Frame :=
  (df.map fillTextCol).map fillNumCol

/-- Elementwise subtraction of two series cells; a missing operand gives a
missing result (NaN propagation). -/
def optSub (a b : Option ℚ) : Option ℚ :=
  match a, b with
  | some x, some y => some (x - y)
  | _, _ => none

/-- `df["ProfitINR"] = series`: if some column already carries the label, every
such column is overwritten in place; otherwise the new column is appended at
the end. -/
def setCol (df : Frame) (c : Col) : Frame :=
  if df.any (fun col => col.name == c.name) then
    df.map (fun col => if col.name == c.name then c else col)
  else df ++ [c]

/-- `clean_data` from `etl/data_cleaner.py`: fill object columns with
`"Unknown"`, fill numeric columns with their median, then derive
`ProfitINR = RevenueINR - OperatingCostINR` when both columns are present.
The source guards the derivation by name membership alone and the subtraction
raises on non-numeric operands, so the derived column is modeled for the
numeric operands the canonical schema prescribes. -/
def clean_data (df : Frame) : Frame :=
  match findCol (fillAll df) "RevenueINR", findCol (fillAll df) "OperatingCostINR" with
  | some (.num _ r), some (.num _ o) =>
      setCol (fillAll df) (Col.num "ProfitINR" (List.zipWith optSub r o))
  | _, _ => fillAll df

/-- Whether the frame has both a `RevenueINR` and an `OperatingCostINR`
column, each of numeric dtype (the condition under which `clean_data`
derives the profit column). -/
def bothRevCostNum (df : Frame) : Bool :=
  match findCol df "RevenueINR", findCol df "OperatingCostINR" with
  | some (.num _ _), some (.num _ _) => true
  | _, _ => false

/-- `DELETE FROM ev_data` in `upload_to_mysql`: the table keeps no row. -/
def deleteAllRows {α : Type} (_t : List α) : List α :=
  []

/-- `df.to_sql("ev_data", engine, if_exists="append", index=False)`: the
dataset rows are appended to the table. -/
def insertRows {α : Type} (t : List α) (rows : List α) : List α :=
  t ++ rows

/-- `upload_to_mysql` from `etl/mysql_uploader.py`, acting on the table state:
step 1 deletes the old rows, step 2 inserts the dataset rows. -/
def upload_to_mysql {α : Type} (df : List α) (table : List α) : List α :=
  insertRows (deleteAllRows table) df

/-- Whether some numeric column of the frame still has a missing cell. -/
def numColHasMissing (df : Frame) : Bool :=
  df.any (fun c =>
    match c with
    | .num _ cs => cs.any Option.isNone
    | .text _ _ => false)

theorem lookup_snd_mem {l : List (String × String)} {k v : String}
    (h : l.lookup k = some v) : v ∈ l.map Prod.snd := by
  induction l with
  | nil => exact Option.noConfusion h
  | cons p t ih =>
      rw [List.lookup] at h
      by_cases hk : k == p.1
      · rw [hk] at h
        injection h with h
        subst h
        exact List.mem_map_of_mem Prod.snd (List.mem_cons_self p t)
      · rw [Bool.of_not_eq_true hk] at h
        exact List.mem_cons_of_mem _ (ih h)

theorem canon_fixed : ∀ v ∈ mappingList.map Prod.snd, renameName v = v := by
  decide

theorem mapping_fixed (k v : String) (h : mapping k = some v) : renameName v = v :=
  canon_fixed v (lookup_snd_mem h)

theorem renameName_idem (c : String) : renameName (renameName c) = renameName c := by
  cases hm : mapping (normKey c) with
  | none =>
      have h1 : renameName c = c := by unfold renameName; rw [hm]
      rw [h1]
      exact h1
  | some v =>
      have h1 : renameName c = v := by unfold renameName; rw [hm]
      rw [h1, mapping_fixed (normKey c) v hm]

theorem renameCol_idem (c : Col) : renameCol (renameCol c) = renameCol c := by
  cases c <;> simp [renameCol, renameName_idem]

theorem renameCol_name (c : Col) : (renameCol c).name = renameName c.name := by
  cases c <;> rfl

/-- Claim C5: `map_columns` is idempotent — a second application changes
nothing, because no canonical name is itself mapped to a different canonical
name by the synonym table. -/
theorem map_columns_idempotent (df : Frame) :
    map_columns (map_columns df) = map_columns df := by
  unfold map_columns
  rw [List.map_map]
  simp [Function.comp, renameCol_idem]

/-- Claim C9: `map_columns` changes only column labels — the output has the
same number of columns, in the same order, and at every position exactly the
same cells (hence the same rows) as the input. -/
theorem map_columns_cells_unchanged (df : Frame) :
    (map_columns df).length = df.length ∧
    ∀ i : ℕ, ((map_columns df).get? i).map Col.cells = (df.get? i).map Col.cells := by
  constructor
  · simp [map_columns]
  · intro i
    rw [map_columns, List.get?_map]
    cases df.get? i with
    | none => rfl
    | some c => cases c <;> rfl

theorem fillTextCol_name (c : Col) : (fillTextCol c).name = c.name := by
  cases c <;> rfl

theorem fillNumCol_name (c : Col) : (fillNumCol c).name = c.name := by
  cases c <;> rfl

theorem findCol_map (f : Col → Col) (hf : ∀ c, (f c).name = c.name) (df : Frame)
    (n : String) : findCol (df.map f) n = (findCol df n).map f := by
  induction df with
  | nil => rfl
  | cons c t ih =>
      simp only [List.map_cons, findCol, hf]
      cases hb : c.name == n
      · simp [hb, ih]
      · simp [hb]

theorem findCol_fillAll (df : Frame) (n : String) :
    findCol (fillAll df) n = (findCol df n).map (fun c => fillNumCol (fillTextCol c)) := by
  unfold fillAll
  rw [findCol_map fillNumCol fillNumCol_name, findCol_map fillTextCol fillTextCol_name,
    Option.map_map]
  rfl

theorem fillAll_get? (df : Frame) (i : ℕ) (c : Col) (hc : df.get? i = some c) :
    (fillAll df).get? i = some (fillNumCol (fillTextCol c)) := by
  unfold fillAll
  rw [List.get?_map, List.get?_map, hc]
  rfl

theorem fillAll_length (df : Frame) : (fillAll df).length = df.length := by
  simp [fillAll]

theorem bothRevCostNum_fillAll (df : Frame) :
    bothRevCostNum (fillAll df) = bothRevCostNum df := by
  unfold bothRevCostNum
  rw [findCol_fillAll, findCol_fillAll]
  rcases findCol df "RevenueINR" with _ | cR <;>
    rcases findCol df "OperatingCostINR" with _ | cO
  · rfl
  · cases cO <;> rfl
  · cases cR <;> rfl
  · cases cR <;> cases cO <;> rfl

theorem bothRevCostNum_elim (df : Frame) (h : bothRevCostNum df = true) :
    ∃ nr r no o, findCol df "RevenueINR" = some (Col.num nr r)
      ∧ findCol df "OperatingCostINR" = some (Col.num no o) := by
  unfold bothRevCostNum at h
  rcases hR : findCol df "RevenueINR" with _ | cR <;>
    rcases hO : findCol df "OperatingCostINR" with _ | cO <;>
      rw [hR, hO] at h
  · exact Bool.noConfusion h
  · cases cO <;> exact Bool.noConfusion h
  · cases cR <;> exact Bool.noConfusion h
  · cases cR with
    | text n cs => cases cO <;> exact Bool.noConfusion h
    | num nr r =>
        cases cO with
        | text n cs => exact Bool.noConfusion h
        | num no o => exact ⟨nr, r, no, o, rfl, rfl⟩

theorem clean_data_of_profit (df : Frame) (nr no : String) (r o : List (Option ℚ))
    (hr : findCol df "RevenueINR" = some (Col.num nr r))
    (ho : findCol df "OperatingCostINR" = some (Col.num no o)) :
    clean_data df
      = setCol (fillAll df)
          (Col.num "ProfitINR" (List.zipWith optSub (fillNumCells r) (fillNumCells o))) := by
  have hr2 : findCol (fillAll df) "RevenueINR" = some (Col.num nr (fillNumCells r)) := by
    rw [findCol_fillAll, hr]; rfl
  have ho2 : findCol (fillAll df) "OperatingCostINR" = some (Col.num no (fillNumCells o)) := by
    rw [findCol_fillAll, ho]; rfl
  unfold clean_data
  rw [hr2, ho2]

theorem clean_data_of_no_profit (df : Frame) (h : bothRevCostNum df = false) :
    clean_data df = fillAll df := by
  unfold clean_data
  split
  · rename_i nr r no o hr ho
    have h2 : bothRevCostNum (fillAll df) = true := by
      unfold bothRevCostNum
      rw [hr, ho]
    rw [bothRevCostNum_fillAll, h] at h2
    exact Bool.noConfusion h2
  · rfl

theorem setCol_get?_of_ne (df : Frame) (c : Col) (i : ℕ) (col : Col)
    (h : df.get? i = some col) (hn : col.name ≠ c.name) :
    (setCol df c).get? i = some col := by
  unfold setCol
  split
  · rw [List.get?_map, h]
    simp [beq_iff_eq, hn]
  · have hi : i < df.length := by
      by_contra hle
      rw [List.get?_eq_none.mpr (Nat.le_of_not_lt hle)] at h
      exact Option.noConfusion h
    rw [List.get?_append hi, h]

/-- The filled column that `clean_data` leaves at the position of a column it
does not overwrite. -/
theorem clean_data_get?_preserved (df : Frame) (i : ℕ) (c : Col)
    (hc : df.get? i = some c)
    (hover : ¬(c.name = "ProfitINR" ∧ bothRevCostNum df = true)) :
    (clean_data df).get? i = some (fillNumCol (fillTextCol c)) := by
  have hfill := fillAll_get? df i c hc
  cases hB : bothRevCostNum df with
  | false => rw [clean_data_of_no_profit df hB]; exact hfill
  | true =>
      obtain ⟨nr, r, no, o, hr, ho⟩ := bothRevCostNum_elim df hB
      rw [clean_data_of_profit df nr no r o hr ho]
      apply setCol_get?_of_ne _ _ _ _ hfill
      rw [fillNumCol_name, fillTextCol_name]
      intro hname
      exact hover ⟨hname, hB⟩

theorem insertSorted_length (x : ℚ) (l : List ℚ) :
    (insertSorted x l).length = l.length + 1 := by
  induction l with
  | nil => rfl
  | cons y ys ih =>
      unfold insertSorted
      split
      · rfl
      · simp [ih]

theorem sortQ_length (l : List ℚ) : (sortQ l).length = l.length := by
  induction l with
  | nil => rfl
  | cons x xs ih => simp [sortQ, insertSorted_length, ih]

theorem median_isSome (xs : List ℚ) (h : xs ≠ []) : ∃ m, median xs = some m := by
  have h0 : ¬(sortQ xs).length = 0 := by
    rw [sortQ_length]
    intro hc
    exact h (List.length_eq_zero.mp hc)
  unfold median
  rw [if_neg h0]
  split_ifs
  · exact ⟨_, rfl⟩
  · exact ⟨_, rfl⟩

theorem any_isSome_filterMap {cs : List (Option ℚ)} (h : cs.any Option.isSome = true) :
    cs.filterMap id ≠ [] := by
  induction cs with
  | nil => exact Bool.noConfusion h
  | cons c t ih =>
      cases c with
      | none =>
          rw [List.any_cons] at h
          simp only [Option.isSome_none, Bool.false_or] at h
          simpa using ih h
      | some a => simp

theorem findCol_replace (t : Frame) (c : Col)
    (h : t.any (fun col => col.name == c.name) = true) :
    findCol (t.map (fun col => if col.name == c.name then c else col)) c.name = some c := by
  induction t with
  | nil => exact Bool.noConfusion h
  | cons col t2 ih =>
      rw [List.any_cons] at h
      rw [List.map_cons, findCol]
      cases hb : col.name == c.name
      · rw [hb, Bool.false_or] at h
        simp only [hb, Bool.false_eq_true, if_false]
        exact ih h
      · simp

theorem any_false_findCol_none (t : Frame) (c : Col)
    (h : t.any (fun col => col.name == c.name) = false) : findCol t c.name = none := by
  induction t with
  | nil => rfl
  | cons col t2 ih =>
      rw [List.any_cons] at h
      cases hb : col.name == c.name
      · rw [hb, Bool.false_or] at h
        rw [findCol, hb]
        simpa using ih h
      · rw [hb] at h
        exact Bool.noConfusion h

theorem findCol_none_append (t l : Frame) (n : String) (h : findCol t n = none) :
    findCol (t ++ l) n = findCol l n := by
  induction t with
  | nil => rfl
  | cons c t2 ih =>
      rw [findCol] at h
      rw [List.cons_append, findCol]
      cases hb : c.name == n
      · rw [hb] at h
        simp only [Bool.false_eq_true, if_false] at h ⊢
        exact ih h
      · rw [hb] at h
        simp at h

theorem findCol_setCol (df : Frame) (c : Col) : findCol (setCol df c) c.name = some c := by
  unfold setCol
  split
  · next hany => exact findCol_replace df c hany
  · next hany =>
      have hfalse : df.any (fun col => col.name == c.name) = false := by
        cases hb : df.any (fun col => col.name == c.name)
        · rfl
        · exact absurd hb hany
      rw [findCol_none_append df [c] c.name (any_false_findCol_none df c hfalse), findCol]
      simp

/-- What `clean_data` is allowed to do to one column: the label is kept, the
cell count is kept, and every non-missing cell keeps its value at its row. -/
def framePreserved : Col → Col → Prop
  | .text n cs, .text n2 cs2 =>
      n2 = n ∧ cs2.length = cs.length
        ∧ ∀ j x, cs.get? j = some (some x) → cs2.get? j = some (some x)
  | .num n cs, .num n2 cs2 =>
      n2 = n ∧ cs2.length = cs.length
        ∧ ∀ j x, cs.get? j = some (some x) → cs2.get? j = some (some x)
  | _, _ => False

theorem fill_preserves (c : Col) : framePreserved c (fillNumCol (fillTextCol c)) := by
  cases c with
  | text n cs =>
      refine ⟨rfl, by simp [fillTextCells], fun j x hx => ?_⟩
      rw [fillTextCells, List.get?_map, hx]
      rfl
  | num n cs =>
      refine ⟨rfl, ?_, fun j x hx => ?_⟩
      · unfold fillNumCells
        split <;> simp
      · unfold fillNumCells
        split
        · rw [List.get?_map, hx]
          rfl
        · exact hx

/-- A two-column frame whose labels `brand` and `manufacturer` both normalize
to the canonical name `Manufacturer`. -/
def collisionDf : Frame :=
  [Col.text "brand" [some "Tata"], Col.text "manufacturer" [some "Ola"]]

/-- Claim C6 counterexample: on a frame with columns `brand` and
`manufacturer`, `map_columns` renames both, so the output carries the label
`Manufacturer` twice — no column is dropped and the canonical column is not
unique, contradicting the claimed last-applied-rename policy under which the
output would contain it exactly once. -/
theorem map_columns_collision_keeps_both :
    (map_columns collisionDf).map Col.name = ["Manufacturer", "Manufacturer"]
    ∧ countName (map_columns collisionDf) "Manufacturer" = 2
    ∧ countName (map_columns collisionDf) "Manufacturer" ≠ 1
    ∧ map_columns collisionDf
        = [Col.text "Manufacturer" [some "Tata"], Col.text "Manufacturer" [some "Ola"]] := by
  decide

/-- Claim C6 (amended): when two distinct columns normalize to the same
canonical name, `map_columns` renames both of them; neither is dropped, the
frame keeps its length, and the canonical label appears at both positions,
so the output carries duplicate labels instead of a single surviving
canonical column. -/
theorem map_columns_collision_duplicates (df : Frame) (i j : ℕ) (ci cj : Col)
    (hij : i ≠ j) (hi : df.get? i = some ci) (hj : df.get? j = some cj)
    (hcoll : renameName ci.name = renameName cj.name) :
    ((map_columns df).get? i).map Col.name = some (renameName ci.name)
    ∧ ((map_columns df).get? j).map Col.name = some (renameName ci.name)
    ∧ (map_columns df).length = df.length := by
  refine ⟨?_, ?_, by simp [map_columns]⟩
  · rw [map_columns, List.get?_map, hi]
    simp [renameCol_name]
  · rw [map_columns, List.get?_map, hj]
    simp [renameCol_name, hcoll]

/-- Claim C6 witness: the amended statement applied to the concrete
brand/manufacturer collision frame. -/
theorem map_columns_collision_duplicates_witness :
    ((map_columns collisionDf).get? 0).map Col.name = some (renameName "brand")
    ∧ ((map_columns collisionDf).get? 1).map Col.name = some (renameName "brand")
    ∧ (map_columns collisionDf).length = collisionDf.length :=
  map_columns_collision_duplicates collisionDf 0 1
    (Col.text "brand" [some "Tata"]) (Col.text "manufacturer" [some "Ola"])
    (by decide) rfl rfl (by decide)


/-- A frame with an all-missing numeric column (`RevenueINR`) and a
pre-existing numeric `ProfitINR` column with one missing cell. -/
def allMissingDf : Frame :=
  [Col.num "ProfitINR" [some 5, none], Col.num "RevenueINR" [none, none],
   Col.num "OperatingCostINR" [some 1, some 2]]

/-- Claim C2 counterexample: after `clean_data`, a numeric column can still
contain missing values, and a previously-missing numeric cell need not equal
its column's pre-fill median.  The all-missing `RevenueINR` column has an
undefined (NaN) median and is left unfilled, and the pre-existing `ProfitINR`
column — whose pre-fill median is 5 — is overwritten by the derived
Revenue − OperatingCost values, which are missing here. -/
theorem clean_data_missing_remains :
    numColHasMissing (clean_data allMissingDf) = true
    ∧ (clean_data allMissingDf).get? 1 = some (Col.num "RevenueINR" [none, none])
    ∧ median ([some (5 : ℚ), none].filterMap id) = some 5
    ∧ (clean_data allMissingDf).get? 0 = some (Col.num "ProfitINR" [none, none]) := by
  decide

/-- Claim C2 (amended): for every numeric column that has at least one
non-missing value and is not a `ProfitINR` column overwritten by the profit
derivation, `clean_data` leaves no missing cell, and every previously-missing
cell equals the column's median over the pre-fill non-missing values; an
all-missing numeric column keeps its missing values (NaN median), and a
pre-existing `ProfitINR` column is overwritten by the derived profit rather
than median-filled when Revenue and OperatingCost are both present. -/
theorem clean_data_fills_num (df : Frame) (i : ℕ) (n : String) (cs : List (Option ℚ))
    (hc : df.get? i = some (Col.num n cs))
    (hsome : cs.any Option.isSome = true)
    (hover : ¬(n = "ProfitINR" ∧ bothRevCostNum df = true)) :
    ∃ m, median (cs.filterMap id) = some m
      ∧ (clean_data df).get? i = some (Col.num n (cs.map (fun c => some (c.getD m)))) := by
  obtain ⟨m, hm⟩ := median_isSome (cs.filterMap id) (any_isSome_filterMap hsome)
  refine ⟨m, hm, ?_⟩
  have h := clean_data_get?_preserved df i _ hc hover
  rw [h]
  show some (Col.num n (fillNumCells cs)) = _
  rw [fillNumCells, hm]

/-- The spec example: a numeric column `[10, None, 20, None, 30]`. -/
def rangeDf : Frame :=
  [Col.num "Rangekm" [some 10, none, some 20, none, some 30]]

/-- Claim C2 witness: the amended statement evaluated on the spec example —
pre-fill median 20, cleaned cells `[10, 20, 20, 20, 30]`. -/
theorem clean_data_fills_num_witness :
    median ([some (10 : ℚ), none, some 20, none, some 30].filterMap id) = some 20
    ∧ (clean_data rangeDf).get? 0
        = some (Col.num "Rangekm" [some 10, some 20, some 20, some 20, some 30]) := by
  obtain ⟨m, hm, hclean⟩ :=
    clean_data_fills_num rangeDf 0 "Rangekm" [some 10, none, some 20, none, some 30]
      rfl (by decide) (by decide)
  have hm20 : m = 20 := by
    have h2 : median ([some (10 : ℚ), none, some 20, none, some 30].filterMap id)
        = some 20 := by decide
    exact Option.some.inj (hm.symm.trans h2)
  subst hm20
  exact ⟨hm, hclean⟩

/-- Claim C3: when the frame has numeric `RevenueINR` and `OperatingCostINR`
columns, `clean_data` produces a `ProfitINR` column whose cells are the
row-wise difference of the two columns as they stand after missing-value
filling, overwriting any prior `ProfitINR` column. -/
theorem clean_data_profit (df : Frame) (nr no : String) (r o : List (Option ℚ))
    (hr : findCol df "RevenueINR" = some (Col.num nr r))
    (ho : findCol df "OperatingCostINR" = some (Col.num no o)) :
    findCol (clean_data df) "ProfitINR"
      = some (Col.num "ProfitINR" (List.zipWith optSub (fillNumCells r) (fillNumCells o))) := by
  rw [clean_data_of_profit df nr no r o hr ho]
  exact findCol_setCol (fillAll df) _

/-- The spec example frame: Revenue `[100, 200]`, OperatingCost `[30, 50]`. -/
def profitDf : Frame :=
  [Col.num "RevenueINR" [some 100, some 200], Col.num "OperatingCostINR" [some 30, some 50]]

/-- Claim C3 witness: on Revenue `[100, 200]` and OperatingCost `[30, 50]`,
the derived profit column is exactly `[70, 150]`. -/
theorem clean_data_profit_witness :
    findCol (clean_data profitDf) "ProfitINR"
      = some (Col.num "ProfitINR" [some 70, some 150]) := by
  have h := clean_data_profit profitDf "RevenueINR" "OperatingCostINR"
    [some 100, some 200] [some 30, some 50] (by decide) (by decide)
  rw [h]
  show some (Col.num "ProfitINR" [some ((100 : ℚ) - 30), some ((200 : ℚ) - 50)]) = _
  norm_num

/-- A frame with a textual `ProfitINR` column next to numeric Revenue and
OperatingCost columns. -/
def textProfitDf : Frame :=
  [Col.text "ProfitINR" [none], Col.num "RevenueINR" [some 1],
   Col.num "OperatingCostINR" [some 1]]

/-- Claim C4 counterexample: a previously-missing textual cell need not equal
`"Unknown"` after `clean_data` — a textual `ProfitINR` column is first filled
but then overwritten by the derived numeric profit column, so its missing
cell does not end up as the sentinel string. -/
theorem clean_data_text_profit_overwritten :
    textProfitDf.get? 0 = some (Col.text "ProfitINR" [none])
    ∧ (clean_data textProfitDf).get? 0 ≠ some (Col.text "ProfitINR" [some "Unknown"]) := by
  decide

/-- Claim C4 (amended): for every textual column that is not a `ProfitINR`
column overwritten by the profit derivation, `clean_data` leaves no missing
cell: every previously-missing cell becomes `"Unknown"` and every other cell
keeps its value. -/
theorem clean_data_fills_text (df : Frame) (i : ℕ) (n : String) (cs : List (Option String))
    (hc : df.get? i = some (Col.text n cs))
    (hover : ¬(n = "ProfitINR" ∧ bothRevCostNum df = true)) :
    (clean_data df).get? i
      = some (Col.text n (cs.map (fun c => some (c.getD "Unknown")))) := by
  exact clean_data_get?_preserved df i _ hc hover

/-- A frame with one textual column holding a present and a missing cell. -/
def cityDf : Frame := [Col.text "City" [some "Pune", none]]

/-- Claim C4 witness: the amended statement evaluated on a textual column
`["Pune", None]`, which cleans to `["Pune", "Unknown"]`. -/
theorem clean_data_fills_text_witness :
    (clean_data cityDf).get? 0
      = some (Col.text "City" [some "Pune", some "Unknown"]) := by
  exact clean_data_fills_text cityDf 0 "City" [some "Pune", none] rfl (by decide)

theorem fillAll_names (df : Frame) : (fillAll df).map Col.name = df.map Col.name := by
  unfold fillAll
  induction df with
  | nil => rfl
  | cons c t ih => simp only [List.map_cons, fillNumCol_name, fillTextCol_name, ih]

/-- Claim C7: when the `RevenueINR` column or the `OperatingCostINR` column is
absent, `clean_data` creates no `ProfitINR` column — the cleaned frame has
exactly the column labels of the input, and cleaning reports no error. -/
theorem clean_data_no_profit_created (df : Frame)
    (h : findCol df "RevenueINR" = none ∨ findCol df "OperatingCostINR" = none) :
    (clean_data df).map Col.name = df.map Col.name := by
  have hB : bothRevCostNum df = false := by
    unfold bothRevCostNum
    rcases h with h | h
    · rw [h]
    · rw [h]
      cases hR : findCol df "RevenueINR" with
      | none => rfl
      | some c => cases c <;> rfl
  rw [clean_data_of_no_profit df hB]
  exact fillAll_names df

/-- A frame with a Revenue column but no OperatingCost column. -/
def revOnlyDf : Frame := [Col.num "RevenueINR" [some 100], Col.text "City" [some "Pune"]]

/-- Claim C7 witness: on a frame lacking `OperatingCostINR`, cleaning keeps
exactly the input column labels — no `ProfitINR` appears. -/
theorem clean_data_no_profit_created_witness :
    (clean_data revOnlyDf).map Col.name = revOnlyDf.map Col.name :=
  clean_data_no_profit_created revOnlyDf (Or.inr (by decide))

/-- Claim C8: `upload_to_mysql` is a full replace — it empties the table and
then inserts exactly the given dataset rows, so the final table equals the
new dataset whatever the prior contents were. -/
theorem upload_to_mysql_full_replace {α : Type} (df table : List α) :
    upload_to_mysql df table = df ∧ deleteAllRows table = ([] : List α) :=
  ⟨rfl, rfl⟩

/-- Claim C10: `clean_data` modifies only missing cells and the `ProfitINR`
column — every column not labeled `ProfitINR` keeps its position, its label,
its row count, and the value of every cell that was not missing. -/
theorem clean_data_frame_effect (df : Frame) (i : ℕ) (c : Col)
    (hc : df.get? i = some c) (hn : c.name ≠ "ProfitINR") :
    ∃ c2, (clean_data df).get? i = some c2 ∧ framePreserved c c2 :=
  ⟨fillNumCol (fillTextCol c),
   clean_data_get?_preserved df i c hc (fun hand => hn hand.1),
   fill_preserves c⟩

/-- A mixed frame used to evaluate the frame-effect claim. -/
def mixedDf : Frame :=
  [Col.text "Manufacturer" [some "Tata", none], Col.num "Rangekm" [some 250, none]]

/-- Claim C10 witness: the frame-effect statement evaluated on a concrete
textual column with one present and one missing cell. -/
theorem clean_data_frame_effect_witness :
    ∃ c2, (clean_data mixedDf).get? 0 = some c2
      ∧ framePreserved (Col.text "Manufacturer" [some "Tata", none]) c2 :=
  clean_data_frame_effect mixedDf 0 (Col.text "Manufacturer" [some "Tata", none])
    rfl (by decide)
